import Mathlib

/-!
Verification of the octomind MCP tool-federation core against its
specification.  The Lean definitions below are a shallow embedding of the
Rust sources: `src/mcp/mod.rs`, `src/mcp/tool_map.rs`,
`src/mcp/health_monitor.rs`, `src/session/chat/response/tool_execution.rs`
and `src/session/chat/context_reduction.rs`.  Effectful collaborators
(process spawning, the LLM provider, per-tool executors) are passed in as
explicit parameters so that the control flow of the embedded functions is
exactly that of the source.
-/

namespace Octomind

/-- Embedding of `serde_json::Value`: the JSON values that flow through the
MCP content envelope.  Numbers are restricted to naturals, which covers every
number the embedded code constructs (token counts, attempt counters). -/
inductive Json where
  | null
  | bool (b : Bool)
  | num (n : Nat)
  | str (s : String)
  | arr (items : List Json)
  | obj (fields : List (String × Json))
  deriving Repr

/-- `Value::get(key)` on an object: first field with the given key. -/
def Json.getField (j : Json) (key : String) : Option Json :=
  match j with
  | .obj fields => (fields.find? (fun kv => kv.1 == key)).map (fun kv => kv.2)
  | _ => none

/-- `Value::as_array`. -/
def Json.asArr : Json → Option (List Json)
  | .arr items => some items
  | _ => none

/-- `Value::as_str`. -/
def Json.asStr : Json → Option String
  | .str s => some s
  | _ => none

/-- JSON string escaping for the common characters (quote, backslash and the
usual control characters); enough for every string the claims evaluate. -/
def escapeChar (c : Char) : String :=
  if c = '\"' then "\\\""
  else if c = '\\' then "\\\\"
  else if c = '\n' then "\\n"
  else if c = '\t' then "\\t"
  else if c = '\r' then "\\r"
  else String.singleton c

def escapeString (s : String) : String :=
  String.join (s.data.map escapeChar)

mutual
/-- Compact serialization of a JSON value, as `serde_json::to_string` /
`format!` produce (whitespace-free; field order as stored). -/
def Json.render : Json → String
  | .null => "null"
  | .bool true => "true"
  | .bool false => "false"
  | .num n => toString n
  | .str s => "\"" ++ escapeString s ++ "\""
  | .arr items => "[" ++ Json.renderList items ++ "]"
  | .obj fields => "\x7b" ++ Json.renderFields fields ++ "\x7d"

def Json.renderList : List Json → String
  | [] => ""
  | [j] => Json.render j
  | j :: rest => Json.render j ++ "," ++ Json.renderList rest

def Json.renderFields : List (String × Json) → String
  | [] => ""
  | [kv] => "\"" ++ escapeString kv.1 ++ "\":" ++ Json.render kv.2
  | kv :: rest =>
      "\"" ++ escapeString kv.1 ++ "\":" ++ Json.render kv.2 ++ "," ++
        Json.renderFields rest
end

/-- Rust `Vec::join(sep)` / iterator `.join(sep)` on strings. -/
def joinSep (sep : String) : List String → String
  | [] => ""
  | [a] => a
  | a :: rest => a ++ sep ++ joinSep sep rest

/-- Rust `str::starts_with` (characterwise). -/
def strStartsWith (s pat : String) : Bool :=
  pat.data.isPrefixOf s.data

/-- Rust `str::trim`: strip whitespace from both ends. -/
def strTrim (s : String) : String :=
  String.mk (((s.data.dropWhile Char.isWhitespace).reverse.dropWhile
    Char.isWhitespace).reverse)

/-- Rust `str::to_lowercase` (ASCII-adequate). -/
def strToLower (s : String) : String :=
  String.mk (s.data.map Char.toLower)

/-- Helper for `str::contains`: does `pat` occur as a prefix of some suffix? -/
def strContainsAux (pat : List Char) : List Char → Bool
  | [] => pat.isPrefixOf ([] : List Char)
  | c :: cs => pat.isPrefixOf (c :: cs) || strContainsAux pat cs

/-- Rust `str::contains(pat)`: substring occurrence. -/
def strContains (s pat : String) : Bool :=
  strContainsAux pat.data s.data

/-- `McpToolCall` from `src/mcp/mod.rs`. -/
structure McpToolCall where
  tool_name : String
  parameters : Json
  tool_id : String
  deriving Repr

/-- `McpToolResult` from `src/mcp/mod.rs`. -/
structure McpToolResult where
  tool_name : String
  result : Json
  tool_id : String
  deriving Repr

/-- `McpToolResult::success`: wrap text content in the MCP envelope. -/
def McpToolResult.success (tool_name tool_id content : String) : McpToolResult :=
  { tool_name := tool_name
    tool_id := tool_id
    result := Json.obj
      [("content", Json.arr [Json.obj [("type", Json.str "text"), ("text", Json.str content)]]),
       ("isError", Json.bool false)] }

/-- `McpToolResult::error`: wrap an error message in the MCP envelope with
`isError: true`. -/
def McpToolResult.error (tool_name tool_id error_message : String) : McpToolResult :=
  { tool_name := tool_name
    tool_id := tool_id
    result := Json.obj
      [("content", Json.arr [Json.obj [("type", Json.str "text"), ("text", Json.str error_message)]]),
       ("isError", Json.bool true)] }

/-- One item of the `content` array: its text when it is a `text` item
(`item.get("type").and_then(as_str) == Some("text")`). -/
def contentItemText (item : Json) : Option String :=
  match item.getField "type" with
  | some (Json.str "text") =>
    (match item.getField "text" with
     | some (Json.str t) => some t
     | _ => none)
  | _ => none

/-- Fallback of `extract_mcp_content`: the legacy `output` field, else
serialize the whole value. -/
def extractFallback (result : Json) : String :=
  match result.getField "output" with
  | some (Json.str s) => s
  | _ => Json.render result

/-- `extract_mcp_content` from `src/mcp/mod.rs`: pull the text out of an
MCP-compliant result value, with the legacy `output` fallback and the
serialize-everything last resort. -/
def extract_mcp_content (result : Json) : String :=
  match result.getField "content" with
  | some content =>
    match content.asArr with
    | some items =>
      let main := joinSep "\n" (items.filterMap contentItemText)
      (match result.getField "metadata" with
       | some Json.null => main
       | some m => main ++ "\n\n[Metadata: " ++ Json.render m ++ "]"
       | none => main)
    | none => extractFallback result
  | none => extractFallback result

/-- One entry of an assistant message's `tool_calls` JSON array, seen through
`tc.get("id").and_then(|id| id.as_str())`: only the optional id matters to the
embedded code. -/
structure ToolCallEntry where
  id : Option String
  deriving Repr, DecidableEq

/-- A session `Message` (role, content, prompt-cache flag, tool linkage). -/
structure Message where
  role : String
  content : String
  cached : Bool := false
  tool_call_id : Option String := none
  name : Option String := none
  tool_calls : Option (List ToolCallEntry) := none
  deriving Repr, DecidableEq

/-- `ToolResponseMessage` from `src/mcp/mod.rs`. -/
structure ToolResponseMessage where
  role : String
  tool_call_id : String
  name : String
  content : String
  deriving Repr, DecidableEq

/-- `tool_results_to_messages` from `src/mcp/mod.rs`: one `tool` message per
result, carrying the result's `tool_id` as `tool_call_id`. -/
def tool_results_to_messages (results : List McpToolResult) : List ToolResponseMessage :=
  results.map (fun r =>
    { role := "tool"
      tool_call_id := r.tool_id
      name := r.tool_name
      content := Json.render r.result })

/-- `ensure_tool_call_ids` from `src/mcp/mod.rs`: walk the calls, giving a
call with an empty id a fresh `tool_<uuid>` id; `freshId` stands for the UUID
generator, indexed by the call's position (`start` is the position of the
first element). -/
def ensure_tool_call_ids (freshId : Nat → String) (start : Nat) :
    List McpToolCall → List McpToolCall
  | [] => []
  | call :: rest =>
    (if call.tool_id == "" then { call with tool_id := "tool_" ++ freshId start }
     else call) :: ensure_tool_call_ids freshId (start + 1) rest

/-- Modelled from the spec: `crate::session::estimate_tokens` is not under
`src/`; the spec fixes the cheap heuristic "bytes/4". -/
def estimate_tokens (text : String) : Nat :=
  text.utf8ByteSize / 4

/-- The decline error message produced by `handle_large_response`. -/
def declineMessage (tool_name : String) (estimated_tokens : Nat) : String :=
  "User declined to process large output from tool " ++ tool_name ++ " (" ++
    toString estimated_tokens ++
    " tokens). The tool executed successfully but the output was too large and the user chose not to include it in the conversation to avoid excessive token usage."

/-- `handle_large_response` from `src/mcp/mod.rs`: estimate the token count of
the serialized result; when it exceeds the warning threshold, prompt the user
(the raw stdin line is `userInput`); a non-`y` answer turns the result into an
MCP error result.  The second component records whether the user was
prompted. -/
def handle_large_response (result : McpToolResult) (threshold : Nat)
    (userInput : String) : McpToolResult × Bool :=
  let estimated_tokens := estimate_tokens (Json.render result.result)
  if estimated_tokens > threshold then
    if strStartsWith (strToLower (strTrim userInput)) "y" then (result, true)
    else
      (McpToolResult.error result.tool_name result.tool_id
        (declineMessage result.tool_name estimated_tokens), true)
  else (result, false)

/-- `execute_tool_call` from `src/mcp/mod.rs`: run the routed execution
(`tryResult` is the outcome of `try_execute_tool_call`) and pass every
successful result through the large-response gate; `toolTime` is the measured
wall time. -/
def execute_tool_call (tryResult : Except String McpToolResult) (threshold : Nat)
    (userInput : String) (toolTime : Nat) : Except String (McpToolResult × Nat) :=
  match tryResult with
  | .ok r => .ok ((handle_large_response r threshold userInput).1, toolTime)
  | .error e => .error e

/-- `McpConnectionType` from `src/config/mcp.rs`. -/
inductive McpConnectionType where
  | Builtin
  | Stdin
  | Http
  deriving Repr, DecidableEq

/-- `HttpConnection` from `src/config/mcp.rs`. -/
inductive HttpConnection where
  | Remote (url : String) (auth_token : Option String)
  | Local (command : String) (args : List String) (auth_token : Option String)
  deriving Repr, DecidableEq

/-- `McpServerConfig` from `src/config/mcp.rs`: the tagged server variant. -/
inductive McpServerConfig where
  | Builtin (name : String) (timeout_seconds : Nat) (tools : List String)
  | Http (name : String) (connection : HttpConnection) (timeout_seconds : Nat)
      (tools : List String)
  | Stdin (name : String) (command : String) (args : List String)
      (timeout_seconds : Nat) (tools : List String)
  deriving Repr, DecidableEq

/-- `McpServerConfig::name`. -/
def McpServerConfig.name : McpServerConfig → String
  | .Builtin n _ _ => n
  | .Http n _ _ _ => n
  | .Stdin n _ _ _ _ => n

/-- `McpServerConfig::connection_type`. -/
def McpServerConfig.connection_type : McpServerConfig → McpConnectionType
  | .Builtin _ _ _ => .Builtin
  | .Http _ _ _ _ => .Http
  | .Stdin _ _ _ _ _ => .Stdin

/-- `McpServerConfig::tools`. -/
def McpServerConfig.tools : McpServerConfig → List String
  | .Builtin _ _ t => t
  | .Http _ _ _ t => t
  | .Stdin _ _ _ _ t => t

/-- `McpServerConfig::command`. -/
def McpServerConfig.command : McpServerConfig → Option String
  | .Stdin _ c _ _ _ => some c
  | .Http _ (.Local c _ _) _ _ => some c
  | _ => none

/-- `ServerHealth` from `src/mcp/process.rs` (declared there; the variants are
pinned by `src/mcp/health_monitor.rs`). -/
inductive ServerHealth where
  | Running
  | Dead
  | Restarting
  | Failed
  deriving Repr, DecidableEq

/-- The action `check_server_health_and_restart_if_dead` takes at one health
tick, as a function of the observed health, the recorded restart count, the
last-restart timestamp and the current time (seconds). -/
inductive HealthTickAction where
  | noAction
  | attemptRestart
  | skipCooldown
  | markFailed
  | resetFailure
  deriving Repr, DecidableEq

/-- Decision logic of `check_server_health_and_restart_if_dead` from
`src/mcp/health_monitor.rs` (lines 183-281).  `now - t` is truncated
subtraction, matching `duration_since(..).unwrap_or(0)` for a clock that went
backwards. -/
def check_server_health_action (health : ServerHealth) (restart_count : Nat)
    (last_restart_time : Option Nat) (now : Nat) : HealthTickAction :=
  match health with
  | .Dead =>
    if restart_count ≥ 3 then .markFailed
    else
      match last_restart_time with
      | some t => if now - t < 30 then .skipCooldown else .attemptRestart
      | none => .attemptRestart
  | .Failed =>
    (match last_restart_time with
     | some t => if now - t > 300 then .resetFailure else .noAction
     | none => .noAction)
  | .Running => .noAction
  | .Restarting => .noAction

/-- `McpFunction` from `src/mcp/mod.rs`. -/
structure McpFunction where
  name : String
  description : String
  parameters : Json
  deriving Repr

/-- `is_tool_allowed_by_patterns` from `src/mcp/mod.rs`: exact names and
`pre*` wildcard patterns; an empty pattern list allows everything. -/
def is_tool_allowed_by_patterns (tool_name : String) (allowed_tools : List String) : Bool :=
  if allowed_tools.isEmpty then true
  else
    allowed_tools.any (fun pat =>
      if pat.endsWith "*" then tool_name.startsWith (pat.dropRight 1)
      else tool_name == pat)

/-- `filter_tools_by_patterns` from `src/mcp/mod.rs`. -/
def filter_tools_by_patterns (tools : List McpFunction) (allowed_tools : List String) :
    List McpFunction :=
  if allowed_tools.isEmpty then tools
  else tools.filter (fun func => is_tool_allowed_by_patterns func.name allowed_tools)

/-- The tool map is stored as an association list `tool name ↦ server`; this
is `HashMap::entry(name).or_insert_with(server)`: insert only when the key is
absent. -/
def mapInsertIfAbsent (m : List (String × McpServerConfig)) (k : String)
    (v : McpServerConfig) : List (String × McpServerConfig) :=
  if (m.find? (fun kv => kv.1 == k)).isSome then m else m ++ [(k, v)]

/-- `HashMap::get` on the association-list tool map. -/
def mapLookup (m : List (String × McpServerConfig)) (k : String) : Option McpServerConfig :=
  (m.find? (fun kv => kv.1 == k)).map (fun kv => kv.2)

/-- The functions one server contributes to the tool map: the discovered
functions (`getFunctions` stands for the per-variant discovery in
`build_tool_server_map_internal` — cached builtin lists or `tools/list` on
external servers, both already filtered through the server's `allowed_tools`
patterns exactly as `filter_tools_by_patterns` does). -/
def server_provided_functions (getFunctions : McpServerConfig → List McpFunction)
    (server : McpServerConfig) : List McpFunction :=
  filter_tools_by_patterns (getFunctions server) server.tools

/-- The inner loop of `build_tool_server_map_internal`: map each of one
server's function names to that server, first entry winning. -/
def processServerFunctions (getFunctions : McpServerConfig → List McpFunction)
    (tool_map : List (String × McpServerConfig)) (server : McpServerConfig) :
    List (String × McpServerConfig) :=
  (server_provided_functions getFunctions server).foldl
    (fun m func => mapInsertIfAbsent m func.name server) tool_map

/-- `build_tool_server_map_internal` from `src/mcp/tool_map.rs` (also
`build_tool_server_map` in `src/mcp/mod.rs`): walk the servers in
configuration order and bind each discovered function name to the first
server that provides it. -/
def build_tool_server_map_internal (getFunctions : McpServerConfig → List McpFunction)
    (servers : List McpServerConfig) : List (String × McpServerConfig) :=
  servers.foldl (processServerFunctions getFunctions) []

/-- Does a server provide a tool name after pattern filtering? -/
def providesTool (getFunctions : McpServerConfig → List McpFunction)
    (server : McpServerConfig) (tool_name : String) : Bool :=
  (server_provided_functions getFunctions server).any (fun f => f.name == tool_name)

/-- A bare function record with a given name (used to instantiate discovery
oracles in concrete configurations). -/
def namedFunction (n : String) : McpFunction :=
  { name := n, description := "", parameters := Json.null }

/-- `ToolMapState` from `src/mcp/tool_map.rs`. -/
structure ToolMapState where
  tool_to_server : List (String × McpServerConfig)
  initd : Bool
  config_hash : Nat
  deriving Repr

/-- The per-server data fed to the hasher by `calculate_config_hash`. -/
def serverHashTriple (s : McpServerConfig) : String × McpConnectionType × List String :=
  (s.name, s.connection_type, s.tools)

/-- `calculate_config_hash` from `src/mcp/tool_map.rs`: hash only each
server's `(name, connection_type, tools)`.  `hashFn` stands for the std
`DefaultHasher`; the claims only use that the hash is a function of these
triples. -/
def calculate_config_hash (hashFn : List (String × McpConnectionType × List String) → Nat)
    (servers : List McpServerConfig) : Nat :=
  hashFn (servers.map serverHashTriple)

/-- `initialize_tool_map` from `src/mcp/tool_map.rs` (the name is shortened
to `init_tool_map` here): skip the rebuild when the map is initialized and
the configuration hash is unchanged; otherwise rebuild.  The boolean reports
whether the map was rebuilt; the call always returns `Ok`. -/
def init_tool_map (hashFn : List (String × McpConnectionType × List String) → Nat)
    (getFunctions : McpServerConfig → List McpFunction)
    (st : ToolMapState) (servers : List McpServerConfig) : ToolMapState × Bool :=
  let config_hash := calculate_config_hash hashFn servers
  if st.initd && st.config_hash == config_hash then (st, false)
  else
    ({ tool_to_server := build_tool_server_map_internal getFunctions servers
       initd := true
       config_hash := config_hash }, true)

/-- `get_server_for_tool` from `src/mcp/tool_map.rs`: `none` when the global
map was never created or not initialized, else the map lookup. -/
def get_server_for_tool (globalMap : Option ToolMapState) (tool_name : String) :
    Option McpServerConfig :=
  match globalMap with
  | none => none
  | some st => if st.initd then mapLookup st.tool_to_server tool_name else none

/-- Per-branch id propagation of `try_execute_tool_call`: every success sets
`result.tool_id = call.tool_id.clone()` on the executor's raw result. -/
def withCallId (call : McpToolCall) (raw : Except String McpToolResult) :
    Except String McpToolResult :=
  match raw with
  | .ok r => .ok { r with tool_id := call.tool_id }
  | .error e => .error e

/-- `try_execute_tool_call` from `src/mcp/mod.rs` (lines 589-801): cancel
fast, route through the tool map, dispatch per connection type and builtin
tool table; `rawExec` stands for the outcome of the selected executor
(builtin implementation or external `tools/call`). -/
def try_execute_tool_call (call : McpToolCall) (route : Option McpServerConfig)
    (rawExec : Except String McpToolResult) (cancelled : Bool) : Except String McpToolResult :=
  if cancelled then .error "Tool execution cancelled"
  else
    match route with
    | some server =>
      match server.connection_type with
      | .Builtin =>
        (match server.name with
         | "developer" =>
           if call.tool_name == "shell" then withCallId call rawExec
           else .error ("Tool " ++ call.tool_name ++ " not implemented in developer server")
         | "filesystem" =>
           if call.tool_name == "text_editor" || call.tool_name == "list_files" then
             withCallId call rawExec
           else .error ("Tool " ++ call.tool_name ++ " not implemented in filesystem server")
         | "agent" =>
           if call.tool_name.startsWith "agent_" then withCallId call rawExec
           else .error ("Tool " ++ call.tool_name ++ " not implemented in agent server")
         | "web" =>
           if call.tool_name == "web_search" || call.tool_name == "image_search" ||
               call.tool_name == "video_search" || call.tool_name == "news_search" ||
               call.tool_name == "read_html" then
             withCallId call rawExec
           else .error ("Tool " ++ call.tool_name ++ " not implemented in web server")
         | other => .error ("Unknown builtin server: " ++ other))
      | .Http => withCallId call rawExec
      | .Stdin => withCallId call rawExec
    | none => .error ("Tool " ++ call.tool_name ++ " not found in any configured MCP server")

/-- Modelled from the spec: `ToolErrorTracker`
(`src/session/chat/tool_error_tracker.rs` is not under `src/`); the spec pins
"LoopDetected — same tool failed N (default 3) consecutive times" and that a
success resets the counter. -/
structure ToolErrorTracker where
  counts : List (String × Nat)
  max_consecutive : Nat := 3
  deriving Repr, DecidableEq

def ToolErrorTracker.get_error_count (t : ToolErrorTracker) (tool_name : String) : Nat :=
  ((t.counts.find? (fun kv => kv.1 == tool_name)).map (fun kv => kv.2)).getD 0

def ToolErrorTracker.setCount (t : ToolErrorTracker) (tool_name : String) (n : Nat) :
    ToolErrorTracker :=
  { t with counts := (tool_name, n) :: t.counts.filter (fun kv => !(kv.1 == tool_name)) }

def ToolErrorTracker.record_success (t : ToolErrorTracker) (tool_name : String) :
    ToolErrorTracker :=
  t.setCount tool_name 0

def ToolErrorTracker.record_error (t : ToolErrorTracker) (tool_name : String) :
    ToolErrorTracker × Bool :=
  let n := t.get_error_count tool_name + 1
  (t.setCount tool_name n, n ≥ t.max_consecutive)

/-- Outcome of one spawned tool task, `Result<Result<(result, ms), Error>, JoinError>`:
the task finished with a tool result, the execution returned an error, or the
task itself failed to join. -/
inductive TaskOutcome where
  | success (r : McpToolResult) (tool_time_ms : Nat)
  | failure (e : String)
  | joinError (e : String)
  deriving Repr

/-- Mutate the last element of a list, `Vec::last_mut`. -/
def updateLast (f : α → α) : List α → List α
  | [] => []
  | [a] => [f a]
  | a :: rest => a :: updateLast f rest

/-- Body of `handle_declined_output_internal`: on the last message, when it is
an assistant message with `tool_calls`, drop the entry whose id matches the
declined tool id; drop the field entirely when nothing remains. -/
def declineRepair (tool_id : String) (m : Message) : Message :=
  if m.role == "assistant" then
    match m.tool_calls with
    | some arr =>
      let retained := arr.filter (fun tc => !(tc.id == some tool_id))
      { m with tool_calls := if retained.isEmpty then none else some retained }
    | none => m
  else m

/-- `handle_declined_output_internal` from
`src/session/chat/response/tool_execution.rs` (lines 582-616). -/
def handle_declined_output_internal (tool_id : String) (messages : List Message) :
    List Message :=
  updateLast (declineRepair tool_id) messages

/-- The loop-detection error result built in `execute_tools_parallel_internal`. -/
def loopErrorResult (tool_name tool_id e : String) (max_consecutive : Nat) : McpToolResult :=
  { tool_name := tool_name
    tool_id := tool_id
    result := Json.obj
      [("error", Json.str ("LOOP DETECTED: Tool " ++ tool_name ++ " failed " ++
          toString max_consecutive ++
          " consecutive times. Last error: " ++ e ++
          ". Please try a completely different approach or ask the user for guidance.")),
       ("tool_name", Json.str tool_name),
       ("consecutive_failures", Json.num max_consecutive),
       ("loop_detected", Json.bool true),
       ("suggestion", Json.str "Try a different tool or approach, or ask user for clarification")] }

/-- The regular error result built in `execute_tools_parallel_internal`
(main-session path, error tracker available). -/
def regularErrorResult (tool_name tool_id e : String) (attempt max_attempts : Nat) :
    McpToolResult :=
  { tool_name := tool_name
    tool_id := tool_id
    result := Json.obj
      [("error", Json.str ("Tool execution failed: " ++ e)),
       ("tool_name", Json.str tool_name),
       ("attempt", Json.num attempt),
       ("max_attempts", Json.num max_attempts)] }

/-- The error result built for a task-level (join) failure. -/
def taskErrorResult (tool_name tool_id e : String) : McpToolResult :=
  { tool_name := tool_name
    tool_id := tool_id
    result := Json.obj
      [("error", Json.str ("Internal task error: " ++ e)),
       ("tool_name", Json.str tool_name),
       ("error_type", Json.str "task_failure")] }

/-- Accumulator of the result-collection loop in
`execute_tools_parallel_internal`: session messages (mutated by
`handle_declined_output`), the error tracker, the collected results and the
accumulated tool time. -/
structure InternalAcc where
  messages : List Message
  tracker : ToolErrorTracker
  results : List McpToolResult
  time : Nat
  deriving Repr

/-- Per-task processing of `execute_tools_parallel_internal` (the body of the
`join_all` branch): successes push their result and reset the error counter;
errors whose text contains `LARGE_OUTPUT_DECLINED_BY_USER` remove the tool
call from the conversation and push nothing; other errors push a loop or
regular error result; join errors push a task error result. -/
def processTaskOutcome (acc : InternalAcc) (tool_name tool_id : String)
    (outcome : TaskOutcome) : InternalAcc :=
  match outcome with
  | .success r tool_time_ms =>
    { acc with
      tracker := acc.tracker.record_success tool_name
      results := acc.results ++ [r]
      time := acc.time + tool_time_ms }
  | .failure e =>
    if strContains e "LARGE_OUTPUT_DECLINED_BY_USER" then
      { acc with messages := handle_declined_output_internal tool_id acc.messages }
    else
      let rec_out := acc.tracker.record_error tool_name
      if rec_out.2 then
        { acc with
          tracker := rec_out.1
          results := acc.results ++
            [loopErrorResult tool_name tool_id e rec_out.1.max_consecutive] }
      else
        { acc with
          tracker := rec_out.1
          results := acc.results ++
            [regularErrorResult tool_name tool_id e
              (rec_out.1.get_error_count tool_name) rec_out.1.max_consecutive] }
  | .joinError e =>
    if strContains e "LARGE_OUTPUT_DECLINED_BY_USER" then
      { acc with messages := handle_declined_output_internal tool_id acc.messages }
    else
      { acc with results := acc.results ++ [taskErrorResult tool_name tool_id e] }

/-- `execute_tools_parallel_internal` from
`src/session/chat/response/tool_execution.rs` (lines 164-433), main-session
context.  `outcomes` are the spawned tasks' outcomes in call order;
`cancelledFirst` is true when the cancellation poll won the `select!` race,
in which case the function returns an EMPTY result list (line 428) and
touches neither the messages nor the tracker. -/
def execute_tools_parallel_internal (calls : List McpToolCall)
    (outcomes : List TaskOutcome) (cancelledFirst : Bool)
    (messages : List Message) (tracker : ToolErrorTracker) :
    List Message × ToolErrorTracker × Except String (List McpToolResult × Nat) :=
  if cancelledFirst then (messages, tracker, .ok ([], 0))
  else
    let acc := (calls.zip outcomes).foldl
      (fun acc co => processTaskOutcome acc co.1.tool_name co.1.tool_id co.2)
      { messages := messages, tracker := tracker, results := [], time := 0 }
    (acc.messages, acc.tracker, .ok (acc.results, acc.time))

/-- Does a `tool_calls` entry have a matching produced result
(`completed_tool_ids.contains(tool_id)`, entries without a valid id count as
unmatched)? -/
def hasResultFor (results : List McpToolResult) (tc : ToolCallEntry) : Bool :=
  match tc.id with
  | some i => results.any (fun r => r.tool_id == i)
  | none => false

/-- The `tool_calls`-array rewrite of `fix_assistant_message_tool_calls`:
retain entries with a matching result; drop the field when nothing remains;
write the filtered array back only when it is shorter than the original call
batch (otherwise the message is left as it was). -/
def repairToolCalls (original_tool_calls : List McpToolCall)
    (results : List McpToolResult) (arr : List ToolCallEntry) :
    Option (List ToolCallEntry) :=
  let retained := arr.filter (hasResultFor results)
  if retained.isEmpty then none
  else if retained.length < original_tool_calls.length then some retained
  else some arr

/-- Apply the `fix_assistant_message_tool_calls` rewrite to one message. -/
def repairMessage (original_tool_calls : List McpToolCall)
    (results : List McpToolResult) (m : Message) : Message :=
  match m.tool_calls with
  | some arr => { m with tool_calls := repairToolCalls original_tool_calls results arr }
  | none => m

/-- `iter_mut().rev().find(target)` + in-place mutation: rewrite the LAST
element satisfying `target`, leaving everything else unchanged. -/
def updateLastSuchThat (target : α → Bool) (f : α → α) : List α → List α
  | [] => []
  | a :: rest =>
    if rest.any target then a :: updateLastSuchThat target f rest
    else if target a then f a :: rest
    else a :: rest

/-- The message `fix_assistant_message_tool_calls` rewrites: the most recent
assistant message carrying `tool_calls`. -/
def isAssistantWithToolCalls (m : Message) : Bool :=
  m.role == "assistant" && m.tool_calls.isSome

/-- `fix_assistant_message_tool_calls` from
`src/session/chat/response/tool_execution.rs` (lines 643-698). -/
def fix_assistant_message_tool_calls (original_tool_calls : List McpToolCall)
    (results : List McpToolResult) (messages : List Message) : List Message :=
  updateLastSuchThat isAssistantWithToolCalls
    (repairMessage original_tool_calls results) messages

/-- The results `execute_tools_parallel` feeds to the repair: the produced
list on `Ok`, the empty slice on `Err`. -/
def resultsOf (outcome : Except String (List McpToolResult × Nat)) : List McpToolResult :=
  match outcome with
  | .ok out => out.1
  | .error _ => []

/-- `execute_tools_parallel` from
`src/session/chat/response/tool_execution.rs` (lines 131-161): run the
batch (`outcome` is what `execute_tools_parallel_unified` returned) and then
ALWAYS repair the assistant message's `tool_calls` against the actually
produced results. -/
def execute_tools_parallel (original_tool_calls : List McpToolCall)
    (outcome : Except String (List McpToolResult × Nat))
    (messages : List Message) :
    Except String (List McpToolResult × Nat) × List Message :=
  (outcome,
   fix_assistant_message_tool_calls original_tool_calls (resultsOf outcome) messages)

/-- The session state touched by `perform_context_reduction`. -/
structure SessionState where
  messages : List Message
  current_non_cached_tokens : Nat
  current_total_tokens : Nat
  last_cache_checkpoint_time : Nat
  deriving Repr, DecidableEq

/-- Modelled from the spec: `ChatSession::add_user_message` /
`Session::add_message` (defined outside `src/`) append one message with the
given role and content to the append-only log (spec §3 Lifecycles). -/
def mkMessage (role content : String) : Message :=
  { role := role, content := content }

/-- The fixed prefix of the summarization prompt; it begins with the phrase
the failure path later searches for. -/
def summarizationPhrase : String :=
  "Please create a concise summary"

def summarizationPromptHeader : String :=
  summarizationPhrase ++
    " of our conversation that preserves all important technical details, decisions made, files modified, and context needed for future development. Focus on actionable information and key outcomes.\n\nConversation to summarize:\n"

/-- Outcome record of `perform_context_reduction`: the final session state,
how many provider calls were made, whether a restoration point was written to
the session log, and whether the call returned `Ok`. -/
structure ReductionOutcome where
  sess : SessionState
  providerCalls : Nat
  restorationLogged : Bool
  ok : Bool
  deriving Repr

/-- `perform_context_reduction` from
`src/session/chat/context_reduction.rs` (lines 27-178): build the
conversation history from the non-system messages, append the synthetic
summarization user message, make one provider call (`apiResult`); on success
log a restoration point, replace the log by the preserved system message plus
the cached summary and zero the token counters; on failure pop the synthetic
user message again. -/
def perform_context_reduction (sess : SessionState)
    (apiResult : Except String String) (now : Nat) : ReductionOutcome :=
  let conversation_history := joinSep "\n\n"
    ((sess.messages.filter (fun m => !(m.role == "system"))).map
      (fun m => m.role.toUpper ++ ": " ++ m.content))
  if conversation_history.isEmpty then
    { sess := sess, providerCalls := 0, restorationLogged := false, ok := true }
  else
    let summarization_prompt := summarizationPromptHeader ++ conversation_history
    let messages1 := sess.messages ++ [mkMessage "user" summarization_prompt]
    match apiResult with
    | .ok summary_content =>
      let system_message := messages1.find? (fun m => m.role == "system")
      let kept := match system_message with
        | some s => [s]
        | none => []
      let messages2 := updateLast (fun m => { m with cached := true })
        (kept ++ [mkMessage "assistant" summary_content])
      { sess :=
          { messages := messages2
            current_non_cached_tokens := 0
            current_total_tokens := 0
            last_cache_checkpoint_time := now }
        providerCalls := 1
        restorationLogged := true
        ok := true }
    | .error _ =>
      let messages2 := match messages1.getLast? with
        | some last =>
          if last.role == "user" && strContains last.content summarizationPhrase then
            messages1.dropLast
          else messages1
        | none => messages1
      { sess := { sess with messages := messages2 }
        providerCalls := 1
        restorationLogged := false
        ok := false }

/-! ### Helper lemmas -/

theorem withCallId_ok (call : McpToolCall) (raw : Except String McpToolResult)
    (r : McpToolResult) (h : withCallId call raw = .ok r) : r.tool_id = call.tool_id := by
  cases raw with
  | ok a =>
    simp only [withCallId] at h
    cases h
    rfl
  | error e => simp [withCallId] at h

theorem extract_mcp_content_error (tool_name tool_id msg : String) :
    extract_mcp_content (McpToolResult.error tool_name tool_id msg).result = msg := rfl

/-! ### C9 -/

/-- C9: round-trip of the MCP tool envelope — extracting the text content of
a success-encoded result returns the original content string. -/
theorem mcp_envelope_round_trip (tool_name tool_id content : String) :
    extract_mcp_content (McpToolResult.success tool_name tool_id content).result = content :=
  rfl

/-! ### C4 -/

/-- C4: at a health tick observing a Dead server, a restart is attempted only
when the restart count is below 3 and at least 30 seconds passed since the
last restart; a restart count of 3 or more yields the Failed transition and
no restart. -/
theorem restart_policy_dead_tick (restart_count : Nat) (last_restart_time : Option Nat)
    (now : Nat) :
    (check_server_health_action .Dead restart_count last_restart_time now =
        .attemptRestart →
      restart_count < 3 ∧ ∀ t, last_restart_time = some t → 30 ≤ now - t)
    ∧ (3 ≤ restart_count →
      check_server_health_action .Dead restart_count last_restart_time now = .markFailed) := by
  constructor
  · intro h
    unfold check_server_health_action at h
    by_cases h3 : restart_count ≥ 3
    · simp [h3] at h
    · refine ⟨by omega, ?_⟩
      intro t ht
      subst ht
      simp only [h3, if_false] at h
      by_cases hcool : now - t < 30
      · simp [hcool] at h
      · omega
  · intro h3
    unfold check_server_health_action
    simp [h3]

/-- Witness for C4 at a concrete input: a server dead with 3 recorded
restarts is marked Failed. -/
theorem restart_policy_dead_tick_witness :
    check_server_health_action .Dead 3 (some 40) 100 = .markFailed :=
  (restart_policy_dead_tick 3 (some 40) 100).2 (by decide)

/-! ### C6 -/

/-- C6 counterexample: a result whose token estimate EQUALS the warning
threshold is returned unchanged without prompting — the gate uses a strict
comparison, so "equal to the threshold" does not prompt, contrary to the
claim. -/
theorem large_response_gate_boundary_counterexample :
    let r := McpToolResult.success "shell" "call_1" "hi"
    let threshold := estimate_tokens (Json.render r.result)
    estimate_tokens (Json.render r.result) ≥ threshold ∧
      handle_large_response r threshold "n" = (r, false) :=
  ⟨le_refl _, rfl⟩

/-- C6 amended: the gate prompts exactly when the estimated token count
STRICTLY exceeds the threshold; at or below the threshold the result is
returned unchanged without prompting. -/
theorem large_response_gate_threshold (r : McpToolResult) (threshold : Nat)
    (userInput : String) :
    (estimate_tokens (Json.render r.result) ≤ threshold →
      handle_large_response r threshold userInput = (r, false))
    ∧ (threshold < estimate_tokens (Json.render r.result) →
      (handle_large_response r threshold userInput).2 = true) := by
  constructor
  · intro h
    unfold handle_large_response
    have : ¬ estimate_tokens (Json.render r.result) > threshold := by omega
    simp [this]
  · intro h
    unfold handle_large_response
    simp only [h, if_true]
    by_cases hy : strStartsWith (strToLower (strTrim userInput)) "y"
    · simp [hy]
    · simp [hy]

/-- Witness for C6 (amended) at a concrete input: a small result under a
large threshold passes through unchanged. -/
theorem large_response_gate_threshold_witness :
    estimate_tokens (Json.render (McpToolResult.success "shell" "call_1" "hi").result) ≤ 10000
    ∧ handle_large_response (McpToolResult.success "shell" "call_1" "hi") 10000 "n"
        = (McpToolResult.success "shell" "call_1" "hi", false) :=
  ⟨by decide,
   (large_response_gate_threshold (McpToolResult.success "shell" "call_1" "hi") 10000 "n").1
     (by decide)⟩

/-! ### C10 -/

/-- C10: tool-map initialization is idempotent with respect to the
configuration hash computed only from each server's
`(name, connection_type, tools)`: a second call whose servers agree on those
triples (even if commands, URLs or timeouts changed) does not rebuild the
map, and a rebuild happens only when the map is uninitialized or the hash
differs. -/
theorem tool_map_init_idempotent
    (hashFn : List (String × McpConnectionType × List String) → Nat)
    (getF1 getF2 : McpServerConfig → List McpFunction)
    (st0 : ToolMapState) (servers1 servers2 : List McpServerConfig)
    (htrip : servers2.map serverHashTriple = servers1.map serverHashTriple) :
    (init_tool_map hashFn getF2 (init_tool_map hashFn getF1 st0 servers1).1 servers2
      = ((init_tool_map hashFn getF1 st0 servers1).1, false))
    ∧ (∀ (st : ToolMapState) (servers : List McpServerConfig)
        (getF : McpServerConfig → List McpFunction),
        (init_tool_map hashFn getF st servers).2 = true →
        ¬(st.initd = true ∧ st.config_hash = calculate_config_hash hashFn servers)) := by
  have hhash : calculate_config_hash hashFn servers2 = calculate_config_hash hashFn servers1 := by
    unfold calculate_config_hash
    rw [htrip]
  have hskipLemma : ∀ (getF : McpServerConfig → List McpFunction) (st : ToolMapState)
      (servers : List McpServerConfig), st.initd = true →
      st.config_hash = calculate_config_hash hashFn servers →
      init_tool_map hashFn getF st servers = (st, false) := by
    intro getF st servers h1 h2
    unfold init_tool_map
    simp [h1, h2]
  have key : ∀ (getF : McpServerConfig → List McpFunction) (st : ToolMapState)
      (servers : List McpServerConfig),
      ((init_tool_map hashFn getF st servers).1).initd = true ∧
        ((init_tool_map hashFn getF st servers).1).config_hash
          = calculate_config_hash hashFn servers := by
    intro getF st servers
    unfold init_tool_map
    by_cases hskip : st.initd && st.config_hash == calculate_config_hash hashFn servers
    · simp only [Bool.and_eq_true, beq_iff_eq] at hskip
      simp [hskip.1, hskip.2]
    · simp only [hskip]
      simp
  constructor
  · have h1 := key getF1 st0 servers1
    exact hskipLemma getF2 _ servers2 h1.1 (by rw [hhash]; exact h1.2)
  · intro st servers getF h hcond
    rw [hskipLemma getF st servers hcond.1 hcond.2] at h
    simp at h

/-- Witness for C10 at a concrete input: changing a stdin server's command
(but not its name, connection type or tools) does not rebuild the map. -/
theorem tool_map_init_idempotent_witness :
    ([McpServerConfig.Stdin "s" "cmd-b" [] 60 []].map serverHashTriple
      = [McpServerConfig.Stdin "s" "cmd-a" [] 30 []].map serverHashTriple)
    ∧ (init_tool_map (fun l => l.length) (fun _ => [])
        (init_tool_map (fun l => l.length) (fun _ => [])
          { tool_to_server := [], initd := false, config_hash := 0 }
          [McpServerConfig.Stdin "s" "cmd-a" [] 30 []]).1
        [McpServerConfig.Stdin "s" "cmd-b" [] 60 []]
      = ((init_tool_map (fun l => l.length) (fun _ => [])
          { tool_to_server := [], initd := false, config_hash := 0 }
          [McpServerConfig.Stdin "s" "cmd-a" [] 30 []]).1, false)) :=
  ⟨by decide,
   (tool_map_init_idempotent (fun l => l.length) (fun _ => []) (fun _ => [])
      { tool_to_server := [], initd := false, config_hash := 0 }
      [McpServerConfig.Stdin "s" "cmd-a" [] 30 []]
      [McpServerConfig.Stdin "s" "cmd-b" [] 60 []] (by decide)).1⟩

/-! ### C5: first-wins routing lemmas -/

theorem mapLookup_insertIfAbsent_some (m : List (String × McpServerConfig))
    (k k2 : String) (v2 x : McpServerConfig) (h : mapLookup m k = some x) :
    mapLookup (mapInsertIfAbsent m k2 v2) k = some x := by
  unfold mapInsertIfAbsent
  by_cases hex : (m.find? (fun kv => kv.1 == k2)).isSome
  · simp [hex, h]
  · simp only [hex, if_false]
    rw [if_neg Bool.false_ne_true]
    unfold mapLookup at h ⊢
    rw [List.find?_append]
    rcases hf : m.find? (fun kv => kv.1 == k) with _ | kv
    · simp [hf] at h
    · simp [hf] at h ⊢
      exact h

theorem mapLookup_insertIfAbsent_none (m : List (String × McpServerConfig))
    (k k2 : String) (v2 : McpServerConfig) (h : mapLookup m k = none) (hne : k2 ≠ k) :
    mapLookup (mapInsertIfAbsent m k2 v2) k = none := by
  unfold mapInsertIfAbsent
  by_cases hex : (m.find? (fun kv => kv.1 == k2)).isSome
  · simp [hex, h]
  · simp only [hex, if_false]
    rw [if_neg Bool.false_ne_true]
    unfold mapLookup at h ⊢
    rcases hf : m.find? (fun kv => kv.1 == k) with _ | kv
    · rw [List.find?_append, hf]
      have hk : (k2 == k) = false := beq_eq_false_iff_ne.mpr hne
      simp [List.find?, hk]
    · simp [hf] at h

theorem mapLookup_insertIfAbsent_new (m : List (String × McpServerConfig))
    (k : String) (v : McpServerConfig) (h : mapLookup m k = none) :
    mapLookup (mapInsertIfAbsent m k v) k = some v := by
  unfold mapInsertIfAbsent
  unfold mapLookup at h
  rcases hf : m.find? (fun kv => kv.1 == k) with _ | kv
  · simp only [hf, Option.isSome_none, if_false]
    rw [if_neg Bool.false_ne_true]
    unfold mapLookup
    rw [List.find?_append]
    simp [hf, List.find?]
  · simp [hf] at h

theorem foldlInsert_some (server : McpServerConfig) (fns : List McpFunction)
    (m : List (String × McpServerConfig)) (k : String) (x : McpServerConfig)
    (h : mapLookup m k = some x) :
    mapLookup (fns.foldl (fun m func => mapInsertIfAbsent m func.name server) m) k
      = some x := by
  induction fns generalizing m with
  | nil => exact h
  | cons f rest ih =>
    exact ih _ (mapLookup_insertIfAbsent_some m k f.name server x h)

theorem foldlInsert_none (server : McpServerConfig) (fns : List McpFunction)
    (m : List (String × McpServerConfig)) (k : String)
    (h : mapLookup m k = none) (hmiss : ∀ f ∈ fns, f.name ≠ k) :
    mapLookup (fns.foldl (fun m func => mapInsertIfAbsent m func.name server) m) k
      = none := by
  induction fns generalizing m with
  | nil => exact h
  | cons f rest ih =>
    refine ih _ ?_ (fun g hg => hmiss g (List.mem_cons_of_mem _ hg))
    exact mapLookup_insertIfAbsent_none m k f.name server h
      (hmiss f (List.mem_cons_self _ _))

theorem foldlInsert_hit (server : McpServerConfig) (fns : List McpFunction)
    (m : List (String × McpServerConfig)) (k : String)
    (h : mapLookup m k = none) (hhit : ∃ f ∈ fns, f.name = k) :
    mapLookup (fns.foldl (fun m func => mapInsertIfAbsent m func.name server) m) k
      = some server := by
  induction fns generalizing m with
  | nil => rcases hhit with ⟨f, hf, _⟩; cases hf
  | cons f rest ih =>
    by_cases hname : f.name = k
    · subst hname
      exact foldlInsert_some server rest _ f.name server
        (mapLookup_insertIfAbsent_new m f.name server h)
    · rcases hhit with ⟨g, hg, hgk⟩
      rcases List.mem_cons.mp hg with hgf | hgrest
      · exact absurd (hgf ▸ hgk) hname
      · exact ih _ (mapLookup_insertIfAbsent_none m k f.name server h hname)
          ⟨g, hgrest, hgk⟩

theorem processServer_some (getFunctions : McpServerConfig → List McpFunction)
    (server : McpServerConfig) (m : List (String × McpServerConfig)) (k : String)
    (x : McpServerConfig) (h : mapLookup m k = some x) :
    mapLookup (processServerFunctions getFunctions m server) k = some x :=
  foldlInsert_some server _ m k x h

theorem serversFold_some (getFunctions : McpServerConfig → List McpFunction)
    (servers : List McpServerConfig) (m : List (String × McpServerConfig)) (k : String)
    (x : McpServerConfig) (h : mapLookup m k = some x) :
    mapLookup (servers.foldl (processServerFunctions getFunctions) m) k = some x := by
  induction servers generalizing m with
  | nil => exact h
  | cons s rest ih => exact ih _ (processServer_some getFunctions s m k x h)

/-- C5: first-wins tool routing — the tool map binds every tool name to the
first configured server providing it; in particular, for a configuration
`[A(provides x, y), B(provides y, z)]` the lookup for `y` resolves to A. -/
theorem first_wins_routing (getFunctions : McpServerConfig → List McpFunction)
    (tool_name : String) (l₁ l₂ : List McpServerConfig) (s : McpServerConfig)
    (hs : providesTool getFunctions s tool_name = true)
    (hbefore : ∀ srv ∈ l₁, providesTool getFunctions srv tool_name = false) :
    mapLookup (build_tool_server_map_internal getFunctions (l₁ ++ s :: l₂)) tool_name
      = some s
    ∧ (∀ (A B : McpServerConfig) (getG : McpServerConfig → List McpFunction)
        (hashFn : List (String × McpConnectionType × List String) → Nat) (x y z : String),
        getG A = [namedFunction x, namedFunction y] →
        getG B = [namedFunction y, namedFunction z] →
        A.tools = [] → B.tools = [] →
        get_server_for_tool
          (some (init_tool_map hashFn getG
            { tool_to_server := [], initd := false, config_hash := 0 } [A, B]).1) y
          = some A) := by
  have haux : ∀ (getH : McpServerConfig → List McpFunction) (t : String)
      (srv : McpServerConfig) (tail pre : List McpServerConfig)
      (m : List (String × McpServerConfig)),
      providesTool getH srv t = true →
      mapLookup m t = none →
      (∀ p ∈ pre, providesTool getH p t = false) →
      mapLookup ((pre ++ srv :: tail).foldl (processServerFunctions getH) m) t
        = some srv := by
    intro getH t srv tail pre
    induction pre with
    | nil =>
      intro m hprov hm _
      simp only [List.nil_append, List.foldl_cons]
      refine serversFold_some getH tail _ t srv ?_
      unfold processServerFunctions
      refine foldlInsert_hit srv _ m t hm ?_
      unfold providesTool at hprov
      rcases List.any_eq_true.mp hprov with ⟨f, hf, hfb⟩
      exact ⟨f, hf, beq_iff_eq.mp hfb⟩
    | cons a rest ih =>
      intro m hprov hm hb
      simp only [List.cons_append, List.foldl_cons]
      refine ih _ hprov ?_ (fun p hp => hb p (List.mem_cons_of_mem _ hp))
      unfold processServerFunctions
      refine foldlInsert_none a _ m t hm ?_
      have ha := hb a (List.mem_cons_self _ _)
      unfold providesTool at ha
      intro f hf hfe
      have hfa := List.any_eq_false.mp ha f hf
      exact hfa (by simp [hfe])
  constructor
  · unfold build_tool_server_map_internal
    exact haux getFunctions tool_name s l₂ l₁ [] hs rfl hbefore
  · intro A B getG hashFn x y z hA hB htA htB
    have hbuild : (init_tool_map hashFn getG
        { tool_to_server := [], initd := false, config_hash := 0 } [A, B]).1
        = { tool_to_server := build_tool_server_map_internal getG [A, B]
            initd := true
            config_hash := calculate_config_hash hashFn [A, B] } := by
      unfold init_tool_map
      simp
    rw [hbuild]
    unfold get_server_for_tool
    simp only [if_true]
    have hprovA : providesTool getG A y = true := by
      unfold providesTool server_provided_functions filter_tools_by_patterns
      simp [hA, htA, namedFunction]
    have := haux getG y A [B] [] [] hprovA rfl (by intro p hp; cases hp)
    unfold build_tool_server_map_internal
    simpa using this

/-- Witness for C5 at a concrete configuration: with server `A` providing
`x, y` and server `B` providing `y, z`, tool `y` routes to `A`. -/
theorem first_wins_routing_witness :
    get_server_for_tool
      (some (init_tool_map (fun l => l.length)
        (fun srv => if srv.name == "A"
          then [namedFunction "x", namedFunction "y"]
          else [namedFunction "y", namedFunction "z"])
        { tool_to_server := [], initd := false, config_hash := 0 }
        [McpServerConfig.Builtin "A" 30 [], McpServerConfig.Builtin "B" 30 []]).1) "y"
      = some (McpServerConfig.Builtin "A" 30 []) :=
  (first_wins_routing
    (fun srv => if srv.name == "A"
      then [namedFunction "x", namedFunction "y"]
      else [namedFunction "y", namedFunction "z"])
    "y" [] [McpServerConfig.Builtin "B" 30 []] (McpServerConfig.Builtin "A" 30 [])
    (by decide) (by intro srv h; cases h)).2
    (McpServerConfig.Builtin "A" 30 []) (McpServerConfig.Builtin "B" 30 [])
    (fun srv => if srv.name == "A"
      then [namedFunction "x", namedFunction "y"]
      else [namedFunction "y", namedFunction "z"])
    (fun l => l.length) "x" "y" "z" rfl rfl rfl rfl

/-! ### C7 -/

theorem ensure_tool_call_ids_get (freshId : Nat → String) (l : List McpToolCall)
    (start i : Nat) :
    (ensure_tool_call_ids freshId start l).get? i
      = (l.get? i).map (fun c =>
          if c.tool_id == "" then { c with tool_id := "tool_" ++ freshId (start + i) }
          else c) := by
  induction l generalizing start i with
  | nil => simp [ensure_tool_call_ids]
  | cons a rest ih =>
    cases i with
    | zero => simp [ensure_tool_call_ids]
    | succ j =>
      simp only [ensure_tool_call_ids, List.get?_cons_succ]
      rw [ih]
      have harith : start + 1 + j = start + (j + 1) := by omega
      rw [harith]

/-- C7: the provider-assigned `tool_id` is preserved byte-for-byte — every
successful execution path of `try_execute_tool_call` returns a result whose
`tool_id` equals the call's; tool messages carry the result's `tool_id` as
`tool_call_id`; and `ensure_tool_call_ids` keeps non-empty ids untouched
while synthesizing a fresh `tool_<uuid>` id for empty ones. -/
theorem tool_id_preservation (call : McpToolCall) (route : Option McpServerConfig)
    (rawExec : Except String McpToolResult) (cancelled : Bool) :
    (∀ r, try_execute_tool_call call route rawExec cancelled = .ok r →
      r.tool_id = call.tool_id)
    ∧ (∀ results, (tool_results_to_messages results).map ToolResponseMessage.tool_call_id
        = results.map McpToolResult.tool_id)
    ∧ (∀ (freshId : Nat → String) (calls : List McpToolCall) (i : Nat) (c : McpToolCall),
        calls.get? i = some c →
        (ensure_tool_call_ids freshId 0 calls).get? i
          = some (if c.tool_id == "" then { c with tool_id := "tool_" ++ freshId i }
                  else c)) := by
  refine ⟨?_, ?_, ?_⟩
  · intro r h
    unfold try_execute_tool_call at h
    cases cancelled with
    | true => simp at h
    | false =>
      simp only [Bool.false_eq_true, if_false] at h
      rcases route with _ | server
      · simp at h
      · rcases server with ⟨n, ts, tl⟩ | ⟨n, conn, ts, tl⟩ | ⟨n, cmd, args, ts, tl⟩
        · simp only [McpServerConfig.connection_type, McpServerConfig.name] at h
          split at h
          all_goals try split at h
          all_goals first | exact withCallId_ok _ _ _ h | simp_all
        · simp only [McpServerConfig.connection_type] at h
          exact withCallId_ok _ _ _ h
        · simp only [McpServerConfig.connection_type] at h
          exact withCallId_ok _ _ _ h
  · intro results
    simp [tool_results_to_messages, Function.comp]
  · intro freshId calls i c hc
    rw [ensure_tool_call_ids_get]
    rw [hc]
    simp

/-- Witness for C7 at concrete inputs: a builtin shell execution keeps the
call's id `id7`; the tool message of a result carries its id; an empty-id
call receives `tool_u0`. -/
theorem tool_id_preservation_witness :
    ({ tool_name := "shell", result := Json.null, tool_id := "id7" } : McpToolResult).tool_id
      = "id7"
    ∧ (tool_results_to_messages [McpToolResult.success "shell" "id7" "ok"]).map
        ToolResponseMessage.tool_call_id
      = [McpToolResult.success "shell" "id7" "ok"].map McpToolResult.tool_id
    ∧ (ensure_tool_call_ids (fun i => "u" ++ toString i) 0
        [{ tool_name := "shell", parameters := Json.null, tool_id := "" }]).get? 0
      = some { tool_name := "shell", parameters := Json.null, tool_id := "tool_u0" } := by
  have h := tool_id_preservation
    { tool_name := "shell", parameters := Json.null, tool_id := "id7" }
    (some (McpServerConfig.Builtin "developer" 30 []))
    (.ok { tool_name := "shell", result := Json.null, tool_id := "other" }) false
  refine ⟨?_, h.2.1 _, ?_⟩
  · exact h.1 { tool_name := "shell", result := Json.null, tool_id := "id7" } rfl
  · have h3 := h.2.2 (fun i => "u" ++ toString i)
      [{ tool_name := "shell", parameters := Json.null, tool_id := "" }] 0
      { tool_name := "shell", parameters := Json.null, tool_id := "" } rfl
    simpa using h3

/-! ### C1 -/

theorem updateLastSuchThat_spec (target : α → Bool) (f : α → α)
    (l₁ l₂ : List α) (a : α) (ha : target a = true)
    (hl₂ : ∀ x ∈ l₂, target x = false) :
    updateLastSuchThat target f (l₁ ++ a :: l₂) = l₁ ++ f a :: l₂ := by
  induction l₁ with
  | nil =>
    simp only [List.nil_append]
    unfold updateLastSuchThat
    have hany : l₂.any target = false := by
      rw [List.any_eq_false]
      intro x hx
      simp [hl₂ x hx]
    simp [hany, ha]
  | cons b rest ih =>
    simp only [List.cons_append]
    unfold updateLastSuchThat
    have hany : (rest ++ a :: l₂).any target = true := by
      rw [List.any_eq_true]
      exact ⟨a, by simp, ha⟩
    simp only [hany, if_true]
    rw [ih]

theorem repairToolCalls_eq (original_tool_calls : List McpToolCall)
    (results : List McpToolResult) (arr : List ToolCallEntry)
    (hlen : arr.length = original_tool_calls.length) :
    repairToolCalls original_tool_calls results arr
      = (if (arr.filter (hasResultFor results)).isEmpty then none
         else some (arr.filter (hasResultFor results))) := by
  unfold repairToolCalls
  by_cases hemp : (arr.filter (hasResultFor results)).isEmpty
  · simp [hemp]
  · simp only [hemp, if_false]
    by_cases hlt : (arr.filter (hasResultFor results)).length < original_tool_calls.length
    · simp [hlt]
    · have hle : (arr.filter (hasResultFor results)).length ≤ arr.length :=
        (List.filter_sublist arr).length_le
      have heq : (arr.filter (hasResultFor results)).length = arr.length := by omega
      have : arr.filter (hasResultFor results) = arr :=
        (List.filter_sublist arr).eq_of_length heq
      simp [hlt, this]

theorem hasResultFor_mem (results : List McpToolResult) (tc : ToolCallEntry)
    (h : hasResultFor results tc = true) : ∃ r ∈ results, tc.id = some r.tool_id := by
  unfold hasResultFor at h
  rcases hid : tc.id with _ | i
  · rw [hid] at h; cases h
  · rw [hid] at h
    rcases List.any_eq_true.mp h with ⟨r, hr, hrb⟩
    exact ⟨r, hr, by rw [beq_iff_eq.mp hrb]⟩

/-- C1: after `execute_tools_parallel` returns — whether the batch succeeded,
failed or was cancelled — the most recent assistant message with `tool_calls`
is repaired so that exactly the `tool_use` entries with a matching produced
result remain, every remaining id has a matching result, and the
`tool_calls` field is dropped entirely when no entry remains. -/
theorem assistant_message_repair (original_tool_calls : List McpToolCall)
    (outcome : Except String (List McpToolResult × Nat))
    (l₁ l₂ : List Message) (msg : Message) (arr : List ToolCallEntry)
    (hrole : msg.role = "assistant")
    (harr : msg.tool_calls = some arr)
    (hlast : ∀ x ∈ l₂, isAssistantWithToolCalls x = false)
    (hids : arr.map ToolCallEntry.id
      = original_tool_calls.map (fun c => some c.tool_id)) :
    (execute_tools_parallel original_tool_calls outcome (l₁ ++ msg :: l₂)).2
      = l₁ ++
        { msg with tool_calls :=
            if (arr.filter (hasResultFor (resultsOf outcome))).isEmpty then none
            else some (arr.filter (hasResultFor (resultsOf outcome))) } :: l₂
    ∧ ∀ tc ∈ arr.filter (hasResultFor (resultsOf outcome)),
        ∃ r ∈ resultsOf outcome, tc.id = some r.tool_id := by
  have hlen : arr.length = original_tool_calls.length := by
    have := congrArg List.length hids
    simpa using this
  constructor
  · show fix_assistant_message_tool_calls original_tool_calls (resultsOf outcome)
        (l₁ ++ msg :: l₂) = _
    unfold fix_assistant_message_tool_calls
    have htarget : isAssistantWithToolCalls msg = true := by
      unfold isAssistantWithToolCalls
      simp [hrole, harr]
    rw [updateLastSuchThat_spec _ _ l₁ l₂ msg htarget hlast]
    unfold repairMessage
    rw [harr]
    simp only [repairToolCalls_eq original_tool_calls (resultsOf outcome) arr hlen]
  · intro tc htc
    exact hasResultFor_mem _ _ (List.of_mem_filter htc)

/-- Witness for C1 at a concrete input: one call, one matching result — the
assistant message keeps exactly that `tool_use`. -/
theorem assistant_message_repair_witness :
    (execute_tools_parallel [{ tool_name := "shell", parameters := Json.null, tool_id := "a" }]
        (.ok ([McpToolResult.success "shell" "a" "ok"], 5))
        [{ role := "assistant", content := "", tool_calls := some [⟨some "a"⟩] }]).2
      = [{ role := "assistant", content := "",
           tool_calls :=
             if (([⟨some "a"⟩] : List ToolCallEntry).filter
                 (hasResultFor (resultsOf (.ok ([McpToolResult.success "shell" "a" "ok"], 5))))).isEmpty
             then none
             else some (([⟨some "a"⟩] : List ToolCallEntry).filter
                 (hasResultFor (resultsOf (.ok ([McpToolResult.success "shell" "a" "ok"], 5))))) }]
    ∧ ∀ tc ∈ (([⟨some "a"⟩] : List ToolCallEntry).filter
        (hasResultFor (resultsOf (.ok ([McpToolResult.success "shell" "a" "ok"], 5))))),
        ∃ r ∈ resultsOf (.ok ([McpToolResult.success "shell" "a" "ok"], 5)),
          tc.id = some r.tool_id := by
  have h := assistant_message_repair
    [{ tool_name := "shell", parameters := Json.null, tool_id := "a" }]
    (.ok ([McpToolResult.success "shell" "a" "ok"], 5))
    [] []
    { role := "assistant", content := "", tool_calls := some [⟨some "a"⟩] }
    [⟨some "a"⟩] rfl rfl (by intro x hx; cases hx) rfl
  simpa using h

/-! ### C2 -/

/-- C2 counterexample: with two tool calls in flight, tool A already
completed and the cancellation flag set, `execute_tools_parallel_internal`
returns the EMPTY result list — A's completed result is NOT retained, no
tool message for A can be appended, and the subsequent repair drops the
assistant message's `tool_calls` entirely instead of narrowing it to A. -/
theorem cancellation_discards_completed_counterexample :
    (execute_tools_parallel_internal
        [{ tool_name := "tA", parameters := Json.null, tool_id := "idA" },
         { tool_name := "tB", parameters := Json.null, tool_id := "idB" }]
        [.success (McpToolResult.success "tA" "idA" "done") 5, .joinError "in flight"]
        true
        [{ role := "assistant", content := "",
           tool_calls := some [⟨some "idA"⟩, ⟨some "idB"⟩] }]
        { counts := [], max_consecutive := 3 }).2.2 = .ok ([], 0)
    ∧ ¬((∃ r ∈ resultsOf (execute_tools_parallel_internal
          [{ tool_name := "tA", parameters := Json.null, tool_id := "idA" },
           { tool_name := "tB", parameters := Json.null, tool_id := "idB" }]
          [.success (McpToolResult.success "tA" "idA" "done") 5, .joinError "in flight"]
          true
          [{ role := "assistant", content := "",
             tool_calls := some [⟨some "idA"⟩, ⟨some "idB"⟩] }]
          { counts := [], max_consecutive := 3 }).2.2, r.tool_id = "idA")
        ∧ (execute_tools_parallel
            [{ tool_name := "tA", parameters := Json.null, tool_id := "idA" },
             { tool_name := "tB", parameters := Json.null, tool_id := "idB" }]
            (execute_tools_parallel_internal
              [{ tool_name := "tA", parameters := Json.null, tool_id := "idA" },
               { tool_name := "tB", parameters := Json.null, tool_id := "idB" }]
              [.success (McpToolResult.success "tA" "idA" "done") 5, .joinError "in flight"]
              true
              [{ role := "assistant", content := "",
                 tool_calls := some [⟨some "idA"⟩, ⟨some "idB"⟩] }]
              { counts := [], max_consecutive := 3 }).2.2
            [{ role := "assistant", content := "",
               tool_calls := some [⟨some "idA"⟩, ⟨some "idB"⟩] }]).2
          = [{ role := "assistant", content := "", tool_calls := some [⟨some "idA"⟩] }]) := by
  refine ⟨rfl, ?_⟩
  intro hclaim
  rcases hclaim.1 with ⟨r, hr, _⟩
  have : resultsOf (Except.ok ([], 0) : Except String (List McpToolResult × Nat)) = [] := rfl
  rw [show (execute_tools_parallel_internal
      [{ tool_name := "tA", parameters := Json.null, tool_id := "idA" },
       { tool_name := "tB", parameters := Json.null, tool_id := "idB" }]
      [.success (McpToolResult.success "tA" "idA" "done") 5, .joinError "in flight"]
      true
      [{ role := "assistant", content := "",
         tool_calls := some [⟨some "idA"⟩, ⟨some "idB"⟩] }]
      { counts := [], max_consecutive := 3 }).2.2 = .ok ([], 0) from rfl, this] at hr
  cases hr

/-- C2 amended: when the cancellation flag wins the race, ALL results are
discarded — `execute_tools_parallel_internal` returns the empty result list
and leaves messages and tracker untouched, and the subsequent repair removes
every `tool_use` entry and drops the `tool_calls` field from the assistant
message. -/
theorem cancellation_discards_completed
    (calls : List McpToolCall) (outcomes : List TaskOutcome)
    (messages : List Message) (tracker : ToolErrorTracker)
    (original_tool_calls : List McpToolCall)
    (l₁ l₂ : List Message) (msg : Message) (arr : List ToolCallEntry)
    (hrole : msg.role = "assistant") (harr : msg.tool_calls = some arr)
    (hlast : ∀ x ∈ l₂, isAssistantWithToolCalls x = false) :
    execute_tools_parallel_internal calls outcomes true messages tracker
      = (messages, tracker, .ok ([], 0))
    ∧ (execute_tools_parallel original_tool_calls (.ok ([], 0)) (l₁ ++ msg :: l₂)).2
      = l₁ ++ { msg with tool_calls := none } :: l₂ := by
  constructor
  · unfold execute_tools_parallel_internal
    simp
  · show fix_assistant_message_tool_calls original_tool_calls
        (resultsOf (.ok ([], 0))) (l₁ ++ msg :: l₂) = _
    have hres : resultsOf (Except.ok ([], 0) : Except String (List McpToolResult × Nat))
        = [] := rfl
    rw [hres]
    unfold fix_assistant_message_tool_calls
    have htarget : isAssistantWithToolCalls msg = true := by
      unfold isAssistantWithToolCalls
      simp [hrole, harr]
    rw [updateLastSuchThat_spec _ _ l₁ l₂ msg htarget hlast]
    unfold repairMessage
    rw [harr]
    have hfilter : arr.filter (hasResultFor []) = [] := by
      rw [List.filter_eq_nil_iff]
      intro tc _
      unfold hasResultFor
      rcases tc.id with _ | i <;> simp
    simp only [repairToolCalls, hfilter]
    simp

/-- Witness for C2 (amended) at a concrete input: cancellation with a
completed tool A yields no results and an assistant message without
`tool_calls`. -/
theorem cancellation_discards_completed_witness :
    execute_tools_parallel_internal
        [{ tool_name := "tA", parameters := Json.null, tool_id := "idA" }]
        [.success (McpToolResult.success "tA" "idA" "done") 5]
        true [] { counts := [], max_consecutive := 3 }
      = ([], { counts := [], max_consecutive := 3 }, .ok ([], 0))
    ∧ (execute_tools_parallel [{ tool_name := "tA", parameters := Json.null, tool_id := "idA" }]
        (.ok ([], 0))
        [{ role := "assistant", content := "", tool_calls := some [⟨some "idA"⟩] }]).2
      = [{ role := "assistant", content := "", tool_calls := none }] := by
  have h := cancellation_discards_completed
    [{ tool_name := "tA", parameters := Json.null, tool_id := "idA" }]
    [.success (McpToolResult.success "tA" "idA" "done") 5]
    [] { counts := [], max_consecutive := 3 }
    [{ tool_name := "tA", parameters := Json.null, tool_id := "idA" }]
    [] []
    { role := "assistant", content := "", tool_calls := some [⟨some "idA"⟩] }
    [⟨some "idA"⟩] rfl rfl (by intro x hx; cases hx)
  simpa using h

/-! ### C3 -/

/-- C3 counterexample: when the user declines an oversized output, the
decline comes back as a SUCCESSFUL `McpToolResult` (with `isError: true`
inside the envelope), so it is pushed as a normal tool result and the
matching `tool_use` block is NOT removed from the assistant message — the
removal path (which looks for `LARGE_OUTPUT_DECLINED_BY_USER` in an error)
never fires. -/
theorem decline_keeps_tool_use_counterexample :
    let bigRes := McpToolResult.success "shell" "call_1" "a long tool output from the shell"
    let declined := (handle_large_response bigRes 0 "n").1
    let aMsg : Message :=
      { role := "assistant", content := "", tool_calls := some [⟨some "call_1"⟩] }
    let call1 : McpToolCall :=
      { tool_name := "shell", parameters := Json.null, tool_id := "call_1" }
    let internal := execute_tools_parallel_internal [call1] [.success declined 7] false
      [aMsg] { counts := [], max_consecutive := 3 }
    declined.result.getField "isError" = some (Json.bool true)
    ∧ internal.2.2 = .ok ([declined], 7)
    ∧ (execute_tools_parallel [call1] internal.2.2 [aMsg]).2 = [aMsg]
    ∧ ¬(∀ tc ∈ ((execute_tools_parallel [call1] internal.2.2 [aMsg]).2.headD
          aMsg).tool_calls.getD [], tc.id ≠ some "call_1") := by
  refine ⟨rfl, rfl, rfl, ?_⟩
  intro hall
  exact hall ⟨some "call_1"⟩ (List.mem_singleton.mpr rfl) rfl

/-- C3 amended: declining an oversized output yields an MCP-compliant error
result (`isError: true`) stating the user declined, carrying the original
`tool_id`; that result is returned through `execute_tool_call` as a SUCCESS,
so it matches the `tool_use` entry and the repair RETAINS the entry (the
assistant message keeps the `tool_use` and a matching tool-result error is
logged for it). -/
theorem decline_yields_error_result (r : McpToolResult) (threshold : Nat)
    (userInput : String) (toolTime : Nat)
    (hbig : threshold < estimate_tokens (Json.render r.result))
    (hdecline : strStartsWith (strToLower (strTrim userInput)) "y" = false) :
    (handle_large_response r threshold userInput).1
      = McpToolResult.error r.tool_name r.tool_id
          (declineMessage r.tool_name (estimate_tokens (Json.render r.result)))
    ∧ (handle_large_response r threshold userInput).1.tool_id = r.tool_id
    ∧ ((handle_large_response r threshold userInput).1.result).getField "isError"
        = some (Json.bool true)
    ∧ extract_mcp_content ((handle_large_response r threshold userInput).1.result)
        = declineMessage r.tool_name (estimate_tokens (Json.render r.result))
    ∧ execute_tool_call (.ok r) threshold userInput toolTime
        = .ok ((handle_large_response r threshold userInput).1, toolTime)
    ∧ ∀ tc : ToolCallEntry, tc.id = some r.tool_id →
        hasResultFor [(handle_large_response r threshold userInput).1] tc = true := by
  have hgate : handle_large_response r threshold userInput
      = (McpToolResult.error r.tool_name r.tool_id
          (declineMessage r.tool_name (estimate_tokens (Json.render r.result))), true) := by
    unfold handle_large_response
    rw [if_pos hbig]
    rw [if_neg (by simp [hdecline])]
  refine ⟨?_, ?_, ?_, ?_, ?_, ?_⟩
  · rw [hgate]
  · rw [hgate]
    rfl
  · rw [hgate]
    rfl
  · rw [hgate]
    exact extract_mcp_content_error _ _ _
  · unfold execute_tool_call
    rfl
  · intro tc hid
    rw [hgate]
    unfold hasResultFor
    rw [hid]
    simp [McpToolResult.error]

/-- Witness for C3 (amended) at a concrete input: a declined output keeps
the call id and is flagged as an error envelope. -/
theorem decline_yields_error_result_witness :
    0 < estimate_tokens
        (Json.render (McpToolResult.success "shell" "call_1" "big output").result)
    ∧ strStartsWith (strToLower (strTrim "n")) "y" = false
    ∧ (handle_large_response (McpToolResult.success "shell" "call_1" "big output")
        0 "n").1.tool_id = "call_1" :=
  ⟨by decide, by decide,
   (decline_yields_error_result (McpToolResult.success "shell" "call_1" "big output")
      0 "n" 7 (by decide) (by decide)).2.1⟩

/-! ### C8 -/

theorem joinSep_length_ge (sep a : String) (rest : List String) :
    a.length ≤ (joinSep sep (a :: rest)).length := by
  cases rest with
  | nil => simp [joinSep]
  | cons b r =>
    simp only [joinSep, String.length_append]
    omega

theorem strContainsAux_nil (l : List Char) : strContainsAux [] l = true := by
  cases l <;> simp [strContainsAux, List.isPrefixOf]

theorem isPrefixOf_append_self (l r : List Char) : l.isPrefixOf (l ++ r) = true := by
  induction l with
  | nil => simp [List.isPrefixOf]
  | cons c cs ih => simp [List.isPrefixOf, ih]

theorem strContains_append_left (pat t : String) : strContains (pat ++ t) pat = true := by
  unfold strContains
  rw [String.data_append]
  rcases hp : pat.data with _ | ⟨c, cs⟩
  · exact strContainsAux_nil _
  · simp only [List.cons_append, strContainsAux]
    simp [List.isPrefixOf, isPrefixOf_append_self]

theorem find?_append_left (p : α → Bool) (l₁ l₂ : List α) (x : α)
    (h : l₁.find? p = some x) : (l₁ ++ l₂).find? p = some x := by
  rw [List.find?_append, h]
  rfl

theorem conversation_history_ne_empty (messages : List Message) (m : Message)
    (hm : m ∈ messages) (hrole : (m.role == "system") = false) :
    (joinSep "\n\n" ((messages.filter (fun x => !(x.role == "system"))).map
      (fun x => x.role.toUpper ++ ": " ++ x.content))).isEmpty = false := by
  have hmem : m ∈ messages.filter (fun x => !(x.role == "system")) :=
    List.mem_filter.mpr ⟨hm, by simp [hrole]⟩
  have hne : messages.filter (fun x => !(x.role == "system")) ≠ [] :=
    List.ne_nil_of_mem hmem
  obtain ⟨a, rest, heq⟩ := List.exists_cons_of_ne_nil hne
  rw [heq]
  simp only [List.map_cons]
  have hhead : 2 ≤ (a.role.toUpper ++ ": " ++ a.content).length := by
    simp only [String.length_append]
    have : (": " : String).length = 2 := rfl
    omega
  have hlen := joinSep_length_ge "\n\n" (a.role.toUpper ++ ": " ++ a.content)
    (rest.map (fun x => x.role.toUpper ++ ": " ++ x.content))
  have hpos : 0 < (joinSep "\n\n" ((a.role.toUpper ++ ": " ++ a.content) ::
      rest.map (fun x => x.role.toUpper ++ ": " ++ x.content))).length := by omega
  rw [Bool.eq_false_iff]
  intro ht
  rw [(String.isEmpty_iff _).mp ht] at hpos
  simp at hpos

/-- C8: the `/done` context reduction makes exactly one provider call; on
success the log becomes the preserved system message followed by one cached
assistant summary, both token counters are zeroed, and a restoration point
is written; on provider failure the synthetic summarization user message is
popped and the log is otherwise unchanged. -/
theorem context_reduction_spec (sess : SessionState)
    (apiResult : Except String String) (now : Nat) (m sysMsg : Message)
    (hm : m ∈ sess.messages) (hmrole : (m.role == "system") = false)
    (hsys : sess.messages.find? (fun x => x.role == "system") = some sysMsg) :
    (perform_context_reduction sess apiResult now).providerCalls = 1
    ∧ (∀ summary, apiResult = .ok summary →
        (perform_context_reduction sess apiResult now).sess.messages
          = [sysMsg, { role := "assistant", content := summary, cached := true }]
        ∧ (perform_context_reduction sess apiResult now).sess.current_non_cached_tokens = 0
        ∧ (perform_context_reduction sess apiResult now).sess.current_total_tokens = 0
        ∧ (perform_context_reduction sess apiResult now).restorationLogged = true)
    ∧ (∀ e, apiResult = .error e →
        (perform_context_reduction sess apiResult now).sess.messages = sess.messages
        ∧ (perform_context_reduction sess apiResult now).ok = false
        ∧ (perform_context_reduction sess apiResult now).restorationLogged = false) := by
  have hemp := conversation_history_ne_empty sess.messages m hm hmrole
  have hcontains : strContains (summarizationPromptHeader ++
      joinSep "\n\n" ((sess.messages.filter (fun x => !(x.role == "system"))).map
        (fun x => x.role.toUpper ++ ": " ++ x.content))) summarizationPhrase = true := by
    rw [show summarizationPromptHeader = summarizationPhrase ++
      " of our conversation that preserves all important technical details, decisions made, files modified, and context needed for future development. Focus on actionable information and key outcomes.\n\nConversation to summarize:\n" from rfl]
    rw [String.append_assoc]
    exact strContains_append_left _ _
  refine ⟨?_, ?_, ?_⟩
  · unfold perform_context_reduction
    simp only [hemp, Bool.false_eq_true, if_false]
    cases apiResult <;> rfl
  · intro summary hok
    subst hok
    refine ⟨?_, ?_, ?_, ?_⟩
    · unfold perform_context_reduction
      simp only [hemp, Bool.false_eq_true, if_false]
      show updateLast (fun x => { x with cached := true })
          ((match (sess.messages ++ [mkMessage "user" _]).find?
              (fun x => x.role == "system") with
            | some s => [s]
            | none => []) ++ [mkMessage "assistant" summary]) = _
      rw [find?_append_left _ sess.messages _ sysMsg hsys]
      simp [updateLast, mkMessage]
    · unfold perform_context_reduction
      simp only [hemp, Bool.false_eq_true, if_false]
    · unfold perform_context_reduction
      simp only [hemp, Bool.false_eq_true, if_false]
    · unfold perform_context_reduction
      simp only [hemp, Bool.false_eq_true, if_false]
  · intro e herr
    subst herr
    refine ⟨?_, ?_, ?_⟩
    · unfold perform_context_reduction
      simp only [hemp, Bool.false_eq_true, if_false]
      show (match (sess.messages ++ [mkMessage "user" _]).getLast? with
            | some last =>
              if last.role == "user" && strContains last.content summarizationPhrase then
                (sess.messages ++ [mkMessage "user" _]).dropLast
              else sess.messages ++ [mkMessage "user" _]
            | none => sess.messages ++ [mkMessage "user" _]) = sess.messages
      rw [List.getLast?_concat]
      simp only [mkMessage, hcontains]
      simp [List.dropLast_concat]
    · unfold perform_context_reduction
      simp only [hemp, Bool.false_eq_true, if_false]
    · unfold perform_context_reduction
      simp only [hemp, Bool.false_eq_true, if_false]

/-- Witness for C8 at a concrete input: a two-message session reduced with a
successful summary call. -/
theorem context_reduction_spec_witness :
    (perform_context_reduction
        { messages := [{ role := "system", content := "S" }, { role := "user", content := "hi" }]
          current_non_cached_tokens := 5
          current_total_tokens := 7
          last_cache_checkpoint_time := 0 } (.ok "SUM") 9).providerCalls = 1
    ∧ (perform_context_reduction
        { messages := [{ role := "system", content := "S" }, { role := "user", content := "hi" }]
          current_non_cached_tokens := 5
          current_total_tokens := 7
          last_cache_checkpoint_time := 0 } (.ok "SUM") 9).sess.messages
      = [{ role := "system", content := "S" },
         { role := "assistant", content := "SUM", cached := true }] := by
  have h := context_reduction_spec
    { messages := [{ role := "system", content := "S" }, { role := "user", content := "hi" }]
      current_non_cached_tokens := 5
      current_total_tokens := 7
      last_cache_checkpoint_time := 0 } (.ok "SUM") 9
    { role := "user", content := "hi" } { role := "system", content := "S" }
    (by simp) rfl rfl
  exact ⟨h.1, (h.2.1 "SUM" rfl).1⟩

end Octomind
